import Mathlib

/-!
Verification development for the A-NLO personal-finance agent core.

Shallow embedding conventions:
* Python floats are modelled as exact rationals (`ℚ`); decimal literals from
  the source are written as their exact fractions.
* The market's Gaussian draw `z` and the transcendental `exp` in the GBM step
  are folded into a nondeterministic oracle: each step receives the proposed
  price `price * exp((mu - sigma^2/2) + sigma*z)` as an arbitrary rational
  (which may be nonpositive, covering floating-point underflow) together with
  the sign of `z`.  Since `exp` is a bijection onto `(0, ∞)`, every positive
  proposed price is realizable by some draw, so counterexamples built from
  positive proposed prices correspond to real executions and invariants proved
  for all oracle values cover all real executions.
* Realized volatility is `sqrt(variance)` in the source and is only ever
  compared against nonnegative constants (or carried along in dictionaries).
  To keep everything computable we represent a volatility by its square
  (`volSq` = the variance) and compare against squared thresholds; since
  `sqrt` is strictly monotone on nonnegatives, `sqrt v < c ↔ v < c^2` for
  `c ≥ 0`, so every comparison is preserved exactly.
* Python dictionaries with unique keys are modelled as association lists with
  first-match lookup, replace-first update and remove-first pop.
* Database/transaction logging (`database.py`, `_log_transaction`,
  `_persist_balance`) is an external persistence sink per the module
  boundaries and is not part of the in-memory state modelled here.
-/

namespace ANLO

/-! ### agents_investment/market_generator.py -/

/-- One simulated instrument: current price and bounded price history.
The GBM parameters `mu`/`sigma` only occur inside the oracle-abstracted
log-return and are therefore not carried in the model state. -/
structure Instrument where
  price : ℚ
  history : List ℚ
  deriving DecidableEq, Repr

/-- The module-level `_state` dictionary has exactly the keys
`INDEX`, `STOCK_A`, `STOCK_B`; keys are never added or removed. -/
structure MarketState where
  index : Instrument
  stockA : Instrument
  stockB : Instrument
  deriving DecidableEq, Repr

/-- Initial `_state` of `market_generator.py`. -/
def initialMarket : MarketState :=
  { index := { price := 100, history := [] }
  , stockA := { price := 60, history := [] }
  , stockB := { price := 140, history := [] } }

/-- Oracle for one `_step_gbm` call on one instrument: the proposed new price
`price * exp(log_ret)` and whether `z >= 0`. -/
structure GbmDraw where
  proposed : ℚ
  zNonneg : Bool
  deriving DecidableEq, Repr

/-- The new-price computation of `_step_gbm`: take the proposed GBM price;
if it is nonpositive or within an absolute `1e-6` of the previous price,
override with a `±0.3%` nudge whose sign matches the sign of `z`. -/
def stepPrice (d : GbmDraw) (price : ℚ) : ℚ :=
  if d.proposed ≤ 0 ∨ |d.proposed - price| < 1 / 1000000 then
    price * (1 + (3 / 1000) * (if d.zNonneg then 1 else -1))
  else
    d.proposed

/-- The history append of `_step_gbm`, evicting the oldest entry once the
history exceeds 2000 points. -/
def pushHistory (h : List ℚ) (p : ℚ) : List ℚ :=
  if 2000 < (h ++ [p]).length then (h ++ [p]).tail else h ++ [p]

/-- Model of `_step_gbm` on one instrument. -/
def stepInstr (d : GbmDraw) (inst : Instrument) : Instrument :=
  { price := stepPrice d inst.price
  , history := pushHistory inst.history (stepPrice d inst.price) }

/-- Oracles for one `step_market()` call (one draw per tracked instrument). -/
structure MarketDraw where
  index : GbmDraw
  stockA : GbmDraw
  stockB : GbmDraw
  deriving DecidableEq, Repr

/-- Model of `step_market`: advance every tracked instrument by one step. -/
def stepMarket (d : MarketDraw) (m : MarketState) : MarketState :=
  { index := stepInstr d.index m.index
  , stockA := stepInstr d.stockA m.stockA
  , stockB := stepInstr d.stockB m.stockB }

/-- A sequence of `step_market()` calls. -/
def runMarket (m : MarketState) (ds : List MarketDraw) : MarketState :=
  ds.foldl (fun acc d => stepMarket d acc) m

/-- The keys of the `_state` dictionary. -/
def trackedTicker (t : String) : Bool :=
  t = "INDEX" || t = "STOCK_A" || t = "STOCK_B"

/-- Model of `if ticker not in _state: ticker = "INDEX"`. -/
def resolveTicker (t : String) : String :=
  if trackedTicker t then t else "INDEX"

/-- Dictionary access `_state[ticker]` for a resolved ticker. -/
def getInstr (m : MarketState) (t : String) : Instrument :=
  if t = "STOCK_A" then m.stockA
  else if t = "STOCK_B" then m.stockB
  else m.index

/-- Model of `get_price`: read-only price query with fallback to `INDEX`;
modelled as a pure function of the market state (the source explicitly
does not advance the walk here). -/
def getPrice (m : MarketState) (t : String) : ℚ :=
  (getInstr m (resolveTicker t)).price

/-- Model of `get_history`: read-only history query with fallback to `INDEX`
(the source returns a fresh copy; values are immutable here). -/
def getHistory (m : MarketState) (t : String) : List ℚ :=
  (getInstr m (resolveTicker t)).history

/-- Model of `history[-1]` under a nonemptiness guarantee. -/
def lastD (l : List ℚ) : ℚ := l.getLastD 0

/-- Model of `history[-2]` under a two-element guarantee. -/
def secondLastD (l : List ℚ) : ℚ := lastD l.dropLast

/-- The single-step percentage returns `(p_i - p_{i-1}) / p_{i-1}` over the
pairs with positive predecessor, shared shape of `_realized_volatility`
(market_generator.py) and `_volatility` (trading_bot.py). -/
def pctReturns (prices : List ℚ) : List ℚ :=
  (prices.zip prices.tail).filterMap
    (fun ab => if 0 < ab.1 then some ((ab.2 - ab.1) / ab.1) else none)

/-- Model of `_realized_volatility` of market_generator.py, represented by its square
(the variance of the returns).  Histories with fewer than two points have no
return pairs, giving the source's `0.0` early result. -/
def realizedVolSq (prices : List ℚ) : ℚ :=
  let rets := pctReturns prices
  if rets = [] then 0
  else
    let mu := rets.sum / rets.length
    ((rets.map (fun r => (r - mu) ^ 2)).sum) / rets.length

/-! ### agents_investment/trading_bot.py -/

/-- Model of `_sma(values, window)`: `None` when there is not enough data, otherwise
the mean of `values[-window:]`. -/
def smaOpt (values : List ℚ) (window : ℕ) : Option ℚ :=
  if values.length < window then none
  else some ((values.drop (values.length - window)).sum / (window : ℚ))

/-- Python `x or fallback` on an optional float: `None` and `0.0` are both
falsy, so the fallback is taken in either case. -/
def orFloat (x : Option ℚ) (fallback : ℚ) : ℚ :=
  match x with
  | none => fallback
  | some v => if v = 0 then fallback else v

/-- Model of `_volatility` of trading_bot.py (its own copy of the realized-volatility
computation), represented by its square. -/
def tbVolSq (values : List ℚ) : ℚ :=
  let rets := pctReturns values
  if rets = [] then 0
  else
    let mu := rets.sum / rets.length
    ((rets.map (fun r => (r - mu) ^ 2)).sum) / rets.length

/-- Result dictionary of `analyze_market`; the `volatility` entry is carried
in squared representation. -/
structure SignalInfo where
  signal : String
  confidence : ℤ
  volSq : ℚ
  deriving DecidableEq, Repr

/-- Model of `analyze_market`: moving-average crossover plus breakout, then the
volatility override.  Thresholds `0.02`, `0.03`, `0.06` on the volatility
become squared thresholds on the variance. -/
def analyzeMarket (history : List ℚ) : SignalInfo :=
  if history = [] then { signal := "hold", confidence := 0, volSq := 0 }
  else
    let short := orFloat (smaOpt history 5) (lastD history)
    let long := orFloat (smaOpt history 20) short
    let price := lastD history
    let vol2 := tbVolSq history
    let base : String × ℤ :=
      if short > long * (101 / 100) ∧ price > long then
        ("buy", if vol2 < (2 / 100) ^ 2 then 70 + 20 else 70)
      else if short < long * (99 / 100) ∧ price < long then
        ("sell", if vol2 > (3 / 100) ^ 2 then 70 + 20 else 70)
      else ("hold", 10)
    let final : String × ℤ := if vol2 > (6 / 100) ^ 2 then ("hold", 20) else base
    { signal := final.1, confidence := min 100 (max 0 final.2), volSq := vol2 }

/-- Model of `predict_price`: ordinary-least-squares line over the last
`min(10, len)` points, extrapolated one step, floored at zero.  The
`den or 1.0` truthiness guard of the source is modelled explicitly. -/
def predictPrice (history : List ℚ) : ℚ :=
  if history = [] then 0
  else if history.length < 3 then lastD history
  else
    let n := min 10 history.length
    let ys := history.drop (history.length - n)
    let meanX : ℚ := ((List.range n).map (fun i => (i : ℚ))).sum / (n : ℚ)
    let meanY : ℚ := ys.sum / (n : ℚ)
    let num : ℚ :=
      ((List.range n).map (fun (i : ℕ) => ((i : ℚ) - meanX) * (ys.getD i 0 - meanY))).sum
    let den0 : ℚ := ((List.range n).map (fun i => ((i : ℚ) - meanX) ^ 2)).sum
    let den : ℚ := if den0 = 0 then 1 else den0
    let slope := num / den
    let intercept := meanY - slope * meanX
    max 0 (intercept + slope * (n : ℚ))

/-! ### Python-dict helpers (unique-key association lists) -/

/-- First-match lookup, the dict read `d.get(k)`. -/
def dictGet : List (String × ℚ) → String → Option ℚ
  | [], _ => none
  | kv :: tl, k => if kv.1 = k then some kv.2 else dictGet tl k

/-- Model of `d.get(k, v)`. -/
def dictGetD (d : List (String × ℚ)) (k : String) (v : ℚ) : ℚ :=
  (dictGet d k).getD v

/-- Model of `d[k] = v`: replace the entry (first match; dict keys are unique) or
append a new one. -/
def dictSet : List (String × ℚ) → String → ℚ → List (String × ℚ)
  | [], k, v => [(k, v)]
  | kv :: tl, k, v => if kv.1 = k then (k, v) :: tl else kv :: dictSet tl k v

/-- Model of `d.pop(k, None)`: remove the entry for `k` if present. -/
def dictPop : List (String × ℚ) → String → List (String × ℚ)
  | [], _ => []
  | kv :: tl, k => if kv.1 = k then tl else kv :: dictPop tl k

/-! ### agents_investment/investment_agent.py -/

/-- One entry of `risk_config`.  `max_vol` is stored squared (`maxVolSq`)
per the volatility representation. -/
structure RiskCfg where
  maxVolSq : ℚ
  maxAlloc : ℚ
  lumpsumFactor : ℚ
  sipFactor : ℚ
  deriving DecidableEq, Repr

/-- Model of `risk_config.get(profile, risk_config["balanced"])`. -/
def riskConfigGet (profile : String) : RiskCfg :=
  if profile = "conservative" then
    { maxVolSq := (2 / 100) ^ 2, maxAlloc := 3 / 100, lumpsumFactor := 0, sipFactor := 7 / 10 }
  else if profile = "balanced" then
    { maxVolSq := (3 / 100) ^ 2, maxAlloc := 6 / 100, lumpsumFactor := 1, sipFactor := 1 }
  else if profile = "aggressive" then
    { maxVolSq := (5 / 100) ^ 2, maxAlloc := 12 / 100, lumpsumFactor := 2, sipFactor := 3 / 2 }
  else
    { maxVolSq := (3 / 100) ^ 2, maxAlloc := 6 / 100, lumpsumFactor := 1, sipFactor := 1 }

/-- The state dictionary consumed by `_compute_sip` and
`evaluate_investment_opportunity`; `Option` fields model possibly-absent
keys read through `state.get(...)` fallback chains. -/
structure AgentState where
  bankBalance : Option ℚ
  balance : Option ℚ
  monthlyIncome : Option ℚ
  incomeRate : Option ℚ
  monthlyExpense : Option ℚ
  expenseRate : Option ℚ
  emergencyBuffer : Option ℚ
  volSq : Option ℚ
  riskProfile : Option String
  deriving DecidableEq, Repr

/-- Model of `_compute_sip`: base amount, emergency-buffer cap, risk-profile
multiplier, high-volatility dampening, floored at zero.  The `history`
argument is kept although the source never reads it. -/
def computeSip (state : AgentState) (history : List ℚ) (profile : String) : ℚ :=
  let _ := history
  let cfg := riskConfigGet profile
  let cash := state.bankBalance.getD (state.balance.getD 0)
  let income := state.monthlyIncome.getD (state.incomeRate.getD 0)
  let expense := state.monthlyExpense.getD (state.expenseRate.getD 0)
  let emergencyBuffer := state.emergencyBuffer.getD (if expense > 0 then expense * 3 else 0)
  let vol2 := state.volSq.getD 0
  let baseSip := max ((3 / 100) * income) ((2 / 100) * cash)
  let available := max 0 (cash - emergencyBuffer)
  let sip := min baseSip available
  let sip2 := sip * cfg.sipFactor
  let sip3 := if vol2 > cfg.maxVolSq then sip2 * (1 / 2) else sip2
  max 0 sip3

/-- Result dictionary of `evaluate_investment_opportunity`. -/
structure InvestPlan where
  shouldInvest : Bool
  amount : ℚ
  mode : String
  signal : String
  confidence : ℤ
  ticker : String
  sipSuggestedAmount : ℚ
  deriving DecidableEq, Repr

/-- Model of `evaluate_investment_opportunity`: SIP plan by default, upgraded to
lump-sum on a strong buy with positive trend and low volatility. -/
def evaluateInvestmentOpportunity (mkt : MarketState) (state : AgentState) : InvestPlan :=
  let ticker := "INDEX"
  let history := getHistory mkt ticker
  let info := analyzeMarket history
  let profile := state.riskProfile.getD "balanced"
  let cfg := riskConfigGet profile
  let predPrice := predictPrice history
  let lastPrice := if history = [] then predPrice else lastD history
  let trendPositive := predPrice > lastPrice
  let sipAmount := computeSip state history profile
  let upgraded : Prop :=
    info.signal = "buy" ∧ info.confidence ≥ 75 ∧ trendPositive ∧
      info.volSq < cfg.maxVolSq ∧ cfg.lumpsumFactor > 0
  let mode := if upgraded then "lumpsum" else "sip"
  let amount := if upgraded then sipAmount * cfg.lumpsumFactor else sipAmount
  let shouldInvest : Prop :=
    if upgraded then amount > 0 else sipAmount > 0 ∧ info.volSq ≤ cfg.maxVolSq
  { shouldInvest := decide shouldInvest
  , amount := if shouldInvest then max amount 0 else 0
  , mode := if shouldInvest then mode else "sip"
  , signal := info.signal
  , confidence := info.confidence
  , ticker := ticker
  , sipSuggestedAmount := sipAmount }

/-- Trade-result dictionary of `Portfolio.buy` / `Portfolio.sell`, reused for
the other executor result dictionaries (which only carry `status` and
`amount`; the remaining fields are zero there). -/
structure TradeResult where
  status : String
  ticker : String
  amount : ℚ
  units : ℚ
  price : ℚ
  deriving DecidableEq, Repr

/-- The holdings ledger: realized position cash plus ticker-to-units map
(the bank balance lives separately in the backend simulation state). -/
structure Portfolio where
  cash : ℚ
  positions : List (String × ℚ)
  deriving DecidableEq, Repr

/-- Model of `Portfolio.buy`: convert a positive currency amount into units at the
current market price; nonpositive amount is a no-op and nonpositive price a
failure. -/
def Portfolio.buy (mkt : MarketState) (pf : Portfolio) (ticker : String) (amount0 : ℚ) :
    Portfolio × TradeResult :=
  let amount := max 0 amount0
  if amount ≤ 0 then
    (pf, { status := "noop", ticker := ticker, amount := 0, units := 0, price := 0 })
  else
    let price := getPrice mkt ticker
    if price ≤ 0 then
      (pf, { status := "failed", ticker := ticker, amount := 0, units := 0, price := 0 })
    else
      let units := amount / price
      ({ pf with positions := dictSet pf.positions ticker (dictGetD pf.positions ticker 0 + units) },
       { status := "filled", ticker := ticker, amount := amount, units := units, price := price })

/-- Model of `Portfolio.sell`: clamp the requested amount to the realizable cash,
decrement holdings (dropping the entry at exactly zero) and credit the
ledger cash. -/
def Portfolio.sell (mkt : MarketState) (pf : Portfolio) (ticker : String) (amount0 : ℚ) :
    Portfolio × TradeResult :=
  let amount := max 0 amount0
  if amount ≤ 0 then
    (pf, { status := "noop", ticker := ticker, amount := 0, units := 0, price := 0 })
  else
    let price := getPrice mkt ticker
    let unitsOwned := dictGetD pf.positions ticker 0
    if unitsOwned ≤ 0 ∨ price ≤ 0 then
      (pf, { status := "failed", ticker := ticker, amount := 0, units := 0, price := 0 })
    else
      let maxCash := unitsOwned * price
      let sellCash := min amount maxCash
      let units := sellCash / price
      let newUnits := max 0 (unitsOwned - units)
      let positions1 := dictSet pf.positions ticker newUnits
      let positions2 := if newUnits = 0 then dictPop positions1 ticker else positions1
      ({ cash := pf.cash + sellCash, positions := positions2 },
       { status := "filled", ticker := ticker, amount := sellCash, units := units, price := price })

/-- Model of `Portfolio.portfolio_value`: position cash plus holdings at current
market prices. -/
def Portfolio.value (mkt : MarketState) (pf : Portfolio) : ℚ :=
  pf.cash + (pf.positions.map (fun kv => kv.2 * getPrice mkt kv.1)).sum

/-! ### backend/utils.py -/

/-- The module-level `SIM_STATE` dictionary. -/
structure SimState where
  bankBalance : ℚ
  baseIncome : ℚ
  baseExpense : ℚ
  incomeHistory : List ℚ
  expenseHistory : List ℚ
  balanceHistory : List ℚ
  sipHistory : List ℚ
  lumpsumHistory : List ℚ
  navHistory : List ℚ
  investedAmount : ℚ
  lastSipSuggested : ℚ
  deriving DecidableEq, Repr

/-- Model of `SIM_STATE` at process start. -/
def initialSimState : SimState :=
  { bankBalance := 10000, baseIncome := 5000, baseExpense := 3000
  , incomeHistory := [], expenseHistory := [], balanceHistory := [10000]
  , sipHistory := [], lumpsumHistory := [], navHistory := []
  , investedAmount := 0, lastSipSuggested := 0 }

/-- Model of `reset_sim_state`: restore the account fields to their initial values
(`base_income`/`base_expense` are not reassigned, and nothing in the source
ever mutates them). -/
def resetSimState (s : SimState) : SimState :=
  { s with bankBalance := 10000, incomeHistory := [], expenseHistory := [],
           balanceHistory := [10000], sipHistory := [], lumpsumHistory := [],
           navHistory := [], investedAmount := 0, lastSipSuggested := 0 }

/-- The `POST /reset` endpoint (`main.py`): reset the database (external
persistence sink, not modelled) and the simulation state.  The in-memory
`_global_portfolio` and the market `_state` are not touched. -/
def resetEndpoint (s : SimState) (pf : Portfolio) (mkt : MarketState) :
    SimState × Portfolio × MarketState :=
  (resetSimState s, pf, mkt)

/-- Model of `_ensure_bootstrap`: if the INDEX history is empty, run 200 market
steps (draws supplied by the oracle stream). -/
def ensureBootstrap (mkt : MarketState) (ds : List MarketDraw) : MarketState :=
  if mkt.index.history = [] then runMarket mkt (ds.take 200) else mkt

/-- Result tuple of `get_index_metrics` (volatility squared). -/
structure IndexMetrics where
  hist : List ℚ
  current : ℚ
  volSq : ℚ
  totalRet : ℚ
  deriving DecidableEq, Repr

/-- Model of `get_index_metrics`: bootstrap if needed, then report the INDEX history,
last price, realized volatility and total return. -/
def getIndexMetrics (mkt : MarketState) (ds : List MarketDraw) :
    MarketState × IndexMetrics :=
  let m := ensureBootstrap mkt ds
  let hist := getHistory m "INDEX"
  let current := if hist = [] then (100 : ℚ) else lastD hist
  let vol2 := realizedVolSq hist
  let totalRet :=
    if 2 ≤ hist.length ∧ 0 < hist.headD 0 then lastD hist / hist.headD 0 - 1 else 0
  (m, { hist := hist, current := current, volSq := vol2, totalRet := totalRet })

/-- The dictionary built by `_construct_core_state`.  It has no
`last_invest_amount` key: `lastInvestAmount` is `none` here and stays `none`
along every path into `compute_reward`. -/
structure CoreState where
  balance : ℚ
  incomeRate : ℚ
  expenseRate : ℚ
  volSq : ℚ
  portfolioValue : ℚ
  emergencyBufferOk : Bool
  riskProfile : String
  bankBalance : ℚ
  monthlyIncome : ℚ
  monthlyExpense : ℚ
  emergencyBuffer : ℚ
  priceHistory : List ℚ
  navHistory : List ℚ
  lastInvestAmount : Option ℚ
  deriving DecidableEq, Repr

/-- Model of `_construct_core_state`. -/
def constructCoreState (sim : SimState) (pf : Portfolio) (mkt : MarketState)
    (ds : List MarketDraw) : MarketState × CoreState :=
  let (m, met) := getIndexMetrics mkt ds
  let navHoldings := Portfolio.value m pf
  let bank := sim.bankBalance
  let monthlyIncome := sim.incomeHistory.getLastD 0
  let monthlyExpense := sim.expenseHistory.getLastD 0
  let emergencyBuffer := if monthlyExpense > 0 then monthlyExpense * 3 else 0
  let emergencyOk := bank ≥ emergencyBuffer
  let riskProfile :=
    if met.volSq < (2 / 100) ^ 2 then "aggressive"
    else if met.volSq < (35 / 1000) ^ 2 then "balanced"
    else "conservative"
  (m,
   { balance := bank
   , incomeRate := monthlyIncome
   , expenseRate := monthlyExpense
   , volSq := met.volSq
   , portfolioValue := bank + navHoldings
   , emergencyBufferOk := emergencyOk
   , riskProfile := riskProfile
   , bankBalance := bank
   , monthlyIncome := monthlyIncome
   , monthlyExpense := monthlyExpense
   , emergencyBuffer := emergencyBuffer
   , priceHistory := met.hist
   , navHistory := sim.navHistory
   , lastInvestAmount := none })

/-- View of the core dictionary through the keys
`_compute_sip`/`evaluate_investment_opportunity` read. -/
def coreToAgent (c : CoreState) : AgentState :=
  { bankBalance := some c.bankBalance
  , balance := some c.balance
  , monthlyIncome := some c.monthlyIncome
  , incomeRate := some c.incomeRate
  , monthlyExpense := some c.monthlyExpense
  , expenseRate := some c.expenseRate
  , emergencyBuffer := some c.emergencyBuffer
  , volSq := some c.volSq
  , riskProfile := some c.riskProfile }

/-- Model of `_recompute_sip_suggestion`: run the evaluator on the given state and
store the suggested SIP into `SIM_STATE["last_sip_suggested"]`
(the evaluator result always carries `sip_suggested_amount`). -/
def recomputeSipSuggestion (sim : SimState) (mkt : MarketState) (core : CoreState) :
    SimState × ℚ :=
  let rec0 := evaluateInvestmentOpportunity mkt (coreToAgent core)
  let sip := rec0.sipSuggestedAmount
  ({ sim with lastSipSuggested := sip }, sip)

/-- Model of `simulate_income_and_expense`: draw income and expense (oracle Gaussian
samples, floored at zero), apply them to the bank balance, extend the
histories, then refresh the SIP suggestion.  Transaction logging goes to the
external persistence sink. -/
def simulateIncomeAndExpense (sim : SimState) (pf : Portfolio) (mkt : MarketState)
    (ds : List MarketDraw) (incomeDraw expenseDraw : ℚ) :
    SimState × MarketState × ℚ × ℚ :=
  let income := max 0 incomeDraw
  let expense := max 0 expenseDraw
  let sim1 := { sim with bankBalance := sim.bankBalance + income
                       , incomeHistory := sim.incomeHistory ++ [income] }
  let sim2 := { sim1 with bankBalance := sim1.bankBalance - expense
                        , expenseHistory := sim1.expenseHistory ++ [expense] }
  let sim3 := { sim2 with balanceHistory := sim2.balanceHistory ++ [sim2.bankBalance] }
  let (m, core) := constructCoreState sim3 pf mkt ds
  let (sim4, _) := recomputeSipSuggestion sim3 m core
  (sim4, m, income, expense)

/-- Model of `apply_investment`: clamp the request at the bank balance, debit the
account, record the contribution in the SIP or lump-sum series, buy units
through the ledger, extend the balance history and the cumulative invested
amount, then refresh the SIP suggestion. -/
def applyInvestment (sim : SimState) (pf : Portfolio) (mkt : MarketState)
    (ds : List MarketDraw) (mode : String) (ticker : String) (amount0 : ℚ) :
    SimState × Portfolio × MarketState × TradeResult :=
  let amount := max 0 amount0
  if amount ≤ 0 then
    ({ sim with sipHistory := sim.sipHistory ++ [0]
              , lumpsumHistory := sim.lumpsumHistory ++ [0] }, pf, mkt,
     { status := "noop", ticker := ticker, amount := 0, units := 0, price := 0 })
  else
    let investAmt := min amount sim.bankBalance
    let sim1 := { sim with bankBalance := sim.bankBalance - investAmt }
    let sim2 :=
      if mode = "lumpsum" then
        { sim1 with sipHistory := sim1.sipHistory ++ [0]
                  , lumpsumHistory := sim1.lumpsumHistory ++ [investAmt] }
      else
        { sim1 with sipHistory := sim1.sipHistory ++ [investAmt]
                  , lumpsumHistory := sim1.lumpsumHistory ++ [0] }
    let (pf1, tradeResult) := Portfolio.buy mkt pf ticker investAmt
    let sim3 := { sim2 with balanceHistory := sim2.balanceHistory ++ [sim2.bankBalance]
                          , investedAmount := sim2.investedAmount + investAmt }
    let (m, core) := constructCoreState sim3 pf1 mkt ds
    let (sim4, _) := recomputeSipSuggestion sim3 m core
    (sim4, pf1, m, tradeResult)

/-- Model of `update_nav_history`: append the current ledger value to the NAV series. -/
def updateNavHistory (sim : SimState) (pf : Portfolio) (mkt : MarketState) :
    SimState × ℚ :=
  let nav := Portfolio.value mkt pf
  ({ sim with navHistory := sim.navHistory ++ [nav] }, nav)

/-- The dictionary returned by `get_state` (core keys plus the suggestion
and cash-flow totals; `nav` is added later by `run_cycle`). -/
structure StateDict where
  core : CoreState
  sipSuggestedAmount : ℚ
  cashflowInflow : ℚ
  cashflowOutflow : ℚ
  nav : Option ℚ
  deriving DecidableEq, Repr

/-- Model of `get_state` (= `observer.observe`): build the core state, refresh the
SIP suggestion (a mutation of `SIM_STATE`), and return the merged dictionary. -/
def getState (sim : SimState) (pf : Portfolio) (mkt : MarketState)
    (ds : List MarketDraw) : SimState × MarketState × StateDict :=
  let (m, core) := constructCoreState sim pf mkt ds
  let (sim1, _) := recomputeSipSuggestion sim m core
  (sim1, m,
   { core := core
   , sipSuggestedAmount := sim1.lastSipSuggested
   , cashflowInflow := sim1.incomeHistory.sum
   , cashflowOutflow := sim1.expenseHistory.sum
   , nav := none })

/-- View of the observed dictionary through the evaluator's keys. -/
def stateDictToAgent (st : StateDict) : AgentState := coreToAgent st.core

/-! ### agents_core: planner, executor, reward, cycle -/

/-- Plan dictionary produced by `planner.plan`. -/
structure PlanOut where
  action : String
  investAmount : ℚ
  investMode : String
  ticker : String
  signal : String
  signalConfidence : ℤ
  suggestedSip : ℚ
  deriving DecidableEq, Repr

/-- Model of `planner.plan`: invest when the evaluator says so, else save / repay /
hold from the buffer flag and the income-expense balance. -/
def plan (mkt : MarketState) (state : StateDict) : PlanOut :=
  let inv := evaluateInvestmentOpportunity mkt (stateDictToAgent state)
  if inv.shouldInvest then
    { action := "invest", investAmount := inv.amount, investMode := inv.mode
    , ticker := inv.ticker, signal := inv.signal, signalConfidence := inv.confidence
    , suggestedSip := inv.sipSuggestedAmount }
  else
    let action :=
      if ¬ state.core.emergencyBufferOk then "save"
      else if state.core.expenseRate > state.core.incomeRate then "repay"
      else "hold"
    { action := action, investAmount := 0, investMode := "sip"
    , ticker := "INDEX", signal := inv.signal, signalConfidence := inv.confidence
    , suggestedSip := inv.sipSuggestedAmount }

/-- Model of `executor.execute`: dispatch on the planned action. -/
def execute (sim : SimState) (pf : Portfolio) (mkt : MarketState)
    (ds : List MarketDraw) (planOut : PlanOut) :
    SimState × Portfolio × MarketState × TradeResult :=
  if planOut.action = "invest" ∧ planOut.investAmount > 0 then
    applyInvestment sim pf mkt ds planOut.investMode planOut.ticker planOut.investAmount
  else if planOut.action = "repay" then
    let repayAmt := max 0 planOut.investAmount
    let sim1 := { sim with bankBalance := sim.bankBalance - repayAmt }
    let sim2 := { sim1 with balanceHistory := sim1.balanceHistory ++ [sim1.bankBalance] }
    (sim2, pf, mkt, { status := "repaid", ticker := "", amount := repayAmt, units := 0, price := 0 })
  else if planOut.action = "save" then
    (sim, pf, mkt, { status := "saved", ticker := "", amount := 0, units := 0, price := 0 })
  else
    (sim, pf, mkt, { status := "hold", ticker := "", amount := 0, units := 0, price := 0 })

/-- Model of `compute_reward`: NAV-change component (full credit only when the state
carries a positive `last_invest_amount`), emergency-buffer penalty, stacked
volatility penalties, execution bonus. -/
def computeReward (state : StateDict) (result : TradeResult) : ℚ :=
  let navHist := state.core.navHistory
  let investAmt := state.core.lastInvestAmount.getD 0
  let navComponent :=
    if 2 ≤ navHist.length then
      let navChange := lastD navHist - secondLastD navHist
      if investAmt > 0 then navChange else navChange * (2 / 10)
    else 0
  let bufferPenalty : ℚ := if state.core.emergencyBufferOk then 0 else -(1 / 2)
  let volPenalty1 : ℚ := if state.core.volSq > (4 / 100) ^ 2 then -(2 / 10) else 0
  let volPenalty2 : ℚ := if state.core.volSq > (7 / 100) ^ 2 then -(1 / 2) else 0
  let bonus : ℚ := if result.status = "filled" ∨ result.status = "saved" then 1 / 20 else 0
  navComponent + bufferPenalty + volPenalty1 + volPenalty2 + bonus

/-- Output of one `run_cycle` call, together with the post-cycle mutable
state (the source mutates module globals; the model returns them). -/
structure CycleOut where
  state : StateDict
  planOut : PlanOut
  result : TradeResult
  reward : ℚ
  simAfter : SimState
  pfAfter : Portfolio
  mktAfter : MarketState
  deriving DecidableEq, Repr

/-- Model of `run_cycle`: advance the market, synthesize cash flows, observe, plan,
execute, update the NAV history and score the reward.  The observed
dictionary's `nav_history` entry aliases `SIM_STATE["nav_history"]` in the
source, so the `update_nav_history` append is visible to `compute_reward`;
the model reflects this by passing the appended series into the state that
`compute_reward` reads. -/
def runCycle (sim : SimState) (pf : Portfolio) (mkt : MarketState)
    (stepDraw : MarketDraw) (incomeDraw expenseDraw : ℚ)
    (ds : List MarketDraw) : CycleOut :=
  let mkt1 := stepMarket stepDraw mkt
  let (sim1, mkt2, income, expense) :=
    simulateIncomeAndExpense sim pf mkt1 ds incomeDraw expenseDraw
  let (sim2, mkt3, st0) := getState sim1 pf mkt2 ds
  let st1 := { st0 with core := { st0.core with monthlyIncome := income
                                              , monthlyExpense := expense } }
  let planOut := plan mkt3 st1
  let (sim3, pf1, mkt4, result) := execute sim2 pf mkt3 ds planOut
  let (sim4, nav) := updateNavHistory sim3 pf1 mkt4
  let st2 := { st1 with nav := some nav
                      , core := { st1.core with navHistory := sim4.navHistory } }
  let reward := computeReward st2 result
  { state := st2, planOut := planOut, result := result, reward := reward
  , simAfter := sim4, pfAfter := pf1, mktAfter := mkt4 }

/-! ### Market invariants (claims C7, C8, C9) -/

/-- The per-step guarantee on consecutive history entries: the step moves by
at least the absolute epsilon `1e-6` or by the exact `0.3%` nudge, and in
either case the two prices differ. -/
def stepGap (a b : ℚ) : Prop :=
  min (1 / 1000000) ((3 / 1000) * a) ≤ |b - a| ∧ a ≠ b

/-- Invariant of one instrument under `_step_gbm`: positive current price,
positive history, a `stepGap` between consecutive history entries, and the
last history entry equal to the current price. -/
def instOK (inst : Instrument) : Prop :=
  0 < inst.price ∧ (∀ x ∈ inst.history, 0 < x) ∧
    inst.history.Chain' stepGap ∧
    (inst.history ≠ [] → inst.history.getLastD 0 = inst.price)

/-- Invariant of the whole market state. -/
def marketOK (m : MarketState) : Prop :=
  instOK m.index ∧ instOK m.stockA ∧ instOK m.stockB

lemma tail_getLastD {l : List ℚ} (h : 2 ≤ l.length) :
    l.tail.getLastD 0 = l.getLastD 0 := by
  match l with
  | [] => simp at h
  | [a] => simp at h
  | a :: b :: t => simp [List.getLastD_cons]

lemma stepPrice_pos (d : GbmDraw) (price : ℚ) (hp : 0 < price) :
    0 < stepPrice d price := by
  unfold stepPrice
  split
  · rcases d.zNonneg with _ | _ <;> simp <;> nlinarith
  · rename_i hguard
    push_neg at hguard
    exact hguard.1

lemma stepPrice_gap (d : GbmDraw) (price : ℚ) (hp : 0 < price) :
    stepGap price (stepPrice d price) := by
  unfold stepPrice
  split
  · have hkey : ∀ s : ℚ, s = 1 ∨ s = -1 → stepGap price (price * (1 + 3 / 1000 * s)) := by
      intro s hs
      constructor
      · have habs : |price * (1 + 3 / 1000 * s) - price| = 3 / 1000 * price := by
          rcases hs with rfl | rfl
          · rw [show price * (1 + 3 / 1000 * (1 : ℚ)) - price = 3 / 1000 * price by ring]
            exact abs_of_pos (by nlinarith)
          · rw [show price * (1 + 3 / 1000 * (-1 : ℚ)) - price = -(3 / 1000 * price) by ring,
              abs_neg]
            exact abs_of_pos (by nlinarith)
        rw [habs]
        exact min_le_right _ _
      · rcases hs with rfl | rfl <;> intro hcontra <;> nlinarith [hcontra]
    rcases hb : d.zNonneg with _ | _
    · simpa [hb] using hkey (-1) (Or.inr rfl)
    · simpa [hb] using hkey 1 (Or.inl rfl)
  · rename_i hguard
    push_neg at hguard
    refine ⟨min_le_of_left_le hguard.2, ?_⟩
    intro hcontra
    rw [← hcontra] at hguard
    simp only [sub_self, abs_zero] at hguard
    nlinarith [hguard.2]

lemma pushHistory_mem (h : List ℚ) (p : ℚ) (hh : ∀ x ∈ h, 0 < x) (hp : 0 < p) :
    ∀ x ∈ pushHistory h p, 0 < x := by
  intro x hx
  have hx' : x ∈ h ++ [p] := by
    unfold pushHistory at hx
    split at hx
    · exact List.mem_of_mem_tail hx
    · exact hx
  rcases List.mem_append.mp hx' with h1 | h2
  · exact hh x h1
  · simp at h2; rw [h2]; exact hp

lemma pushHistory_chain (h : List ℚ) (p q : ℚ) (hc : h.Chain' stepGap)
    (hlast : h ≠ [] → h.getLastD 0 = q) (hgap : stepGap q p) :
    (pushHistory h p).Chain' stepGap := by
  have hchain' : (h ++ [p]).Chain' stepGap := by
    rw [List.chain'_append]
    refine ⟨hc, List.chain'_singleton _, ?_⟩
    intro x hx y hy
    simp at hy
    subst hy
    have hne : h ≠ [] := by
      intro hnil; rw [hnil] at hx; simp at hx
    have hxq : x = q := by
      have h2 := hlast hne
      rw [List.getLastD_eq_getLast?] at h2
      rw [Option.mem_def] at hx
      rw [hx] at h2
      simpa using h2
    rw [hxq]
    exact hgap
  unfold pushHistory
  split
  · exact List.Chain'.tail hchain'
  · exact hchain'

lemma pushHistory_getLastD (h : List ℚ) (p : ℚ) :
    (pushHistory h p).getLastD 0 = p := by
  have hcat : (h ++ [p]).getLastD 0 = p := by
    rw [List.getLastD_eq_getLast?, List.getLast?_concat]
    rfl
  unfold pushHistory
  split
  · rename_i hlen
    rw [tail_getLastD (by simp at hlen ⊢; omega)]
    exact hcat
  · exact hcat

lemma stepInstr_ok (d : GbmDraw) (inst : Instrument) (h : instOK inst) :
    instOK (stepInstr d inst) := by
  obtain ⟨hp, hhist, hchain, hlast⟩ := h
  have hp' : 0 < stepPrice d inst.price := stepPrice_pos d inst.price hp
  have hgap : stepGap inst.price (stepPrice d inst.price) := stepPrice_gap d inst.price hp
  refine ⟨hp', ?_, ?_, ?_⟩
  · exact pushHistory_mem inst.history (stepPrice d inst.price) hhist hp'
  · exact pushHistory_chain inst.history (stepPrice d inst.price) inst.price hchain hlast hgap
  · intro _
    exact pushHistory_getLastD inst.history (stepPrice d inst.price)

lemma stepMarket_ok (d : MarketDraw) (m : MarketState) (h : marketOK m) :
    marketOK (stepMarket d m) :=
  ⟨stepInstr_ok d.index m.index h.1, stepInstr_ok d.stockA m.stockA h.2.1,
   stepInstr_ok d.stockB m.stockB h.2.2⟩

lemma runMarket_ok (ds : List MarketDraw) (m : MarketState) (h : marketOK m) :
    marketOK (runMarket m ds) := by
  induction ds generalizing m with
  | nil => exact h
  | cons d tl ih => exact ih (stepMarket d m) (stepMarket_ok d m h)

lemma initialMarket_ok : marketOK initialMarket := by
  refine ⟨?_, ?_, ?_⟩ <;>
    exact ⟨by norm_num [initialMarket], by simp [initialMarket], by simp [initialMarket],
      by simp [initialMarket]⟩

/-- C7: starting from the initial market state, after any sequence of
`step_market()` calls every current price and every history entry of every
instrument is strictly positive. -/
theorem market_prices_always_positive (ds : List MarketDraw) :
    (0 < (runMarket initialMarket ds).index.price ∧
      ∀ x ∈ (runMarket initialMarket ds).index.history, 0 < x) ∧
    (0 < (runMarket initialMarket ds).stockA.price ∧
      ∀ x ∈ (runMarket initialMarket ds).stockA.history, 0 < x) ∧
    (0 < (runMarket initialMarket ds).stockB.price ∧
      ∀ x ∈ (runMarket initialMarket ds).stockB.history, 0 < x) := by
  have h := runMarket_ok ds initialMarket initialMarket_ok
  exact ⟨⟨h.1.1, h.1.2.1⟩, ⟨h.2.1.1, h.2.1.2.1⟩, ⟨h.2.2.1, h.2.2.2.1⟩⟩

/-- The no-flat-step condition exactly as claim C8 states it: consecutive
history prices differ by more than a `1e-6` relative tolerance. -/
def relNoFlat (l : List ℚ) : Prop :=
  l.Chain' (fun a b => |b - a| > (1 / 1000000) * a)

/-- Draws exhibiting an admissible GBM step of absolute size exactly `1e-6`:
from price 150 the proposal `150 + 1e-6` is positive and not within the
source's absolute `1e-6` epsilon, so it is kept unchanged. -/
def dsC8 : List MarketDraw :=
  [ { index := { proposed := 150, zNonneg := true }
    , stockA := { proposed := 61, zNonneg := true }
    , stockB := { proposed := 141, zNonneg := true } }
  , { index := { proposed := 150 + 1 / 1000000, zNonneg := true }
    , stockA := { proposed := 62, zNonneg := true }
    , stockB := { proposed := 142, zNonneg := true } } ]

lemma dsC8_index_history :
    (runMarket initialMarket dsC8).index.history = [150, 150 + 1 / 1000000] := by
  norm_num [runMarket, dsC8, initialMarket, stepMarket, stepInstr, stepPrice, pushHistory,
    List.foldl]
  exact le_abs_self _

/-- C8 counterexample: the source guards flat steps with an absolute `1e-6`
epsilon, not a relative one; a kept step of absolute size exactly `1e-6` at
price 150 violates the claimed relative bound `|Δ| > 1e-6 × price`. -/
theorem no_flat_step_relative_tolerance_fails :
    ¬ ∀ ds : List MarketDraw, relNoFlat (runMarket initialMarket ds).index.history := by
  intro hall
  have h := hall dsC8
  rw [relNoFlat, dsC8_index_history] at h
  simp only [List.chain'_cons, List.chain'_singleton, and_true] at h
  rw [show |(150 : ℚ) + 1 / 1000000 - 150| = 1 / 1000000 by norm_num [abs_of_pos]] at h
  norm_num at h

/-- C8 amended: along every run from the initial market state, consecutive
history entries of every instrument differ by at least
`min(1e-6, 0.003 × previous price)` — the absolute epsilon or the exact
nudge size — and in particular are never equal. -/
theorem no_flat_step_absolute (ds : List MarketDraw) :
    (runMarket initialMarket ds).index.history.Chain' stepGap ∧
    (runMarket initialMarket ds).stockA.history.Chain' stepGap ∧
    (runMarket initialMarket ds).stockB.history.Chain' stepGap := by
  have h := runMarket_ok ds initialMarket initialMarket_ok
  exact ⟨h.1.2.2.1, h.2.1.2.2.1, h.2.2.2.2.1⟩

/-- C9: `get_price` and `get_history` are total, read-only queries (they are
pure functions of the market state by construction, matching the source's
explicit no-advance policy): every tracked symbol resolves to its own
instrument, and every unknown symbol falls back to the INDEX instrument. -/
theorem get_price_history_fallback (m : MarketState) (s : String) :
    (getPrice m "INDEX" = m.index.price ∧ getHistory m "INDEX" = m.index.history) ∧
    (getPrice m "STOCK_A" = m.stockA.price ∧ getHistory m "STOCK_A" = m.stockA.history) ∧
    (getPrice m "STOCK_B" = m.stockB.price ∧ getHistory m "STOCK_B" = m.stockB.history) ∧
    (trackedTicker s = false →
      getPrice m s = m.index.price ∧ getHistory m s = m.index.history) := by
  refine ⟨⟨rfl, rfl⟩, ⟨rfl, rfl⟩, ⟨rfl, rfl⟩, ?_⟩
  intro hs
  unfold getPrice getHistory resolveTicker
  rw [hs]
  exact ⟨rfl, rfl⟩

/-- C9 witness: the untracked symbol FOO falls back to INDEX. -/
theorem get_price_history_fallback_witness :
    getPrice initialMarket "FOO" = initialMarket.index.price ∧
      getHistory initialMarket "FOO" = initialMarket.index.history :=
  (get_price_history_fallback initialMarket "FOO").2.2.2 (by rfl)

/-! ### Association-list lemmas (Python dicts have unique keys) -/

lemma dictGet_cons (kv : String × ℚ) (tl : List (String × ℚ)) (k : String) :
    dictGet (kv :: tl) k = if kv.1 = k then some kv.2 else dictGet tl k := rfl

lemma dictSet_cons (kv : String × ℚ) (tl : List (String × ℚ)) (k : String) (v : ℚ) :
    dictSet (kv :: tl) k v = if kv.1 = k then (k, v) :: tl else kv :: dictSet tl k v := rfl

lemma dictPop_cons (kv : String × ℚ) (tl : List (String × ℚ)) (k : String) :
    dictPop (kv :: tl) k = if kv.1 = k then tl else kv :: dictPop tl k := rfl

lemma dictGet_dictSet_self (l : List (String × ℚ)) (k : String) (v : ℚ) :
    dictGet (dictSet l k v) k = some v := by
  induction l with
  | nil => simp [dictSet, dictGet]
  | cons kv tl ih =>
    rw [dictSet_cons]
    by_cases hk : kv.1 = k
    · rw [if_pos hk, dictGet_cons, if_pos rfl]
    · rw [if_neg hk, dictGet_cons, if_neg hk, ih]

lemma dictGet_eq_none_of_not_mem (l : List (String × ℚ)) (k : String)
    (h : k ∉ l.map Prod.fst) : dictGet l k = none := by
  induction l with
  | nil => rfl
  | cons kv tl ih =>
    rw [List.map_cons, List.mem_cons] at h
    push_neg at h
    rw [dictGet_cons, if_neg (fun he => h.1 he.symm), ih h.2]

lemma dictSet_keys_subset (l : List (String × ℚ)) (k : String) (v : ℚ) :
    ∀ x ∈ (dictSet l k v).map Prod.fst, x ∈ l.map Prod.fst ∨ x = k := by
  induction l with
  | nil =>
    intro x hx
    simp [dictSet] at hx
    right
    exact hx
  | cons kv tl ih =>
    intro x hx
    rw [dictSet_cons] at hx
    by_cases hk : kv.1 = k
    · rw [if_pos hk, List.map_cons, List.mem_cons] at hx
      rcases hx with h1 | h2
      · right; exact h1
      · left; rw [List.map_cons, List.mem_cons]; right; exact h2
    · rw [if_neg hk, List.map_cons, List.mem_cons] at hx
      rcases hx with h1 | h2
      · left; rw [List.map_cons, List.mem_cons]; left; exact h1
      · rcases ih x h2 with h3 | h4
        · left; rw [List.map_cons, List.mem_cons]; right; exact h3
        · right; exact h4

lemma dictSet_nodup (l : List (String × ℚ)) (k : String) (v : ℚ)
    (h : (l.map Prod.fst).Nodup) : ((dictSet l k v).map Prod.fst).Nodup := by
  induction l with
  | nil => simp [dictSet]
  | cons kv tl ih =>
    rw [List.map_cons, List.nodup_cons] at h
    rw [dictSet_cons]
    by_cases hk : kv.1 = k
    · rw [if_pos hk, List.map_cons, List.nodup_cons]
      exact ⟨fun hmem => h.1 (hk ▸ hmem), h.2⟩
    · rw [if_neg hk, List.map_cons, List.nodup_cons]
      refine ⟨?_, ih h.2⟩
      intro hmem
      rcases dictSet_keys_subset tl k v kv.1 hmem with h1 | h2
      · exact h.1 h1
      · exact hk h2

lemma dictGet_dictPop_dictSet (l : List (String × ℚ)) (k : String) (v : ℚ)
    (h : (l.map Prod.fst).Nodup) :
    dictGet (dictPop (dictSet l k v) k) k = none := by
  induction l with
  | nil => simp [dictSet, dictPop, dictGet]
  | cons kv tl ih =>
    rw [List.map_cons, List.nodup_cons] at h
    rw [dictSet_cons]
    by_cases hk : kv.1 = k
    · rw [if_pos hk, dictPop_cons]
      simp only [if_pos rfl]
      exact dictGet_eq_none_of_not_mem tl k (hk ▸ h.1)
    · rw [if_neg hk, dictPop_cons, if_neg hk, dictGet_cons, if_neg hk]
      exact ih h.2

lemma dictValue_dictSet (l : List (String × ℚ)) (k : String) (v : ℚ) (f : String → ℚ) :
    ((dictSet l k v).map (fun kv => kv.2 * f kv.1)).sum
      = (l.map (fun kv => kv.2 * f kv.1)).sum + (v - dictGetD l k 0) * f k := by
  induction l with
  | nil => simp [dictSet, dictGetD, dictGet]
  | cons kv tl ih =>
    rw [dictSet_cons]
    by_cases hk : kv.1 = k
    · rw [if_pos hk, List.map_cons, List.map_cons, List.sum_cons, List.sum_cons]
      simp only [dictGetD, dictGet_cons, if_pos hk]
      rw [← hk]
      simp only [Option.getD_some]
      ring
    · rw [if_neg hk, List.map_cons, List.map_cons, List.sum_cons, List.sum_cons]
      simp only [dictGetD, dictGet_cons, if_neg hk] at ih ⊢
      rw [ih]
      ring

/-! ### C6: ledger round-trip -/

/-- C6: buying `a` at price `p > 0` into an empty position credits `a/p`
units; an over-requested sell at price `p2 > 0` clamps to the realizable
cash, removes the position entry, and credits exactly `a * p2 / p` of ledger
cash. -/
theorem ledger_buy_sell_round_trip
    (mkt1 mkt2 : MarketState) (pf : Portfolio) (t : String) (a b : ℚ)
    (hnodup : (pf.positions.map Prod.fst).Nodup)
    (hzero : dictGetD pf.positions t 0 = 0)
    (ha : 0 < a) (hp1 : 0 < getPrice mkt1 t) (hp2 : 0 < getPrice mkt2 t)
    (hb : a / getPrice mkt1 t * getPrice mkt2 t ≤ b) :
    (Portfolio.buy mkt1 pf t a).2.status = "filled" ∧
    (Portfolio.buy mkt1 pf t a).2.units = a / getPrice mkt1 t ∧
    dictGetD (Portfolio.buy mkt1 pf t a).1.positions t 0 = a / getPrice mkt1 t ∧
    (Portfolio.sell mkt2 (Portfolio.buy mkt1 pf t a).1 t b).2.status = "filled" ∧
    (Portfolio.sell mkt2 (Portfolio.buy mkt1 pf t a).1 t b).2.amount
      = a * getPrice mkt2 t / getPrice mkt1 t ∧
    (Portfolio.sell mkt2 (Portfolio.buy mkt1 pf t a).1 t b).1.cash
      = pf.cash + a * getPrice mkt2 t / getPrice mkt1 t ∧
    dictGet (Portfolio.sell mkt2 (Portfolio.buy mkt1 pf t a).1 t b).1.positions t = none := by
  have hamax : max 0 a = a := max_eq_right ha.le
  have hbuy : Portfolio.buy mkt1 pf t a =
      ({ pf with positions := dictSet pf.positions t (a / getPrice mkt1 t) },
       { status := "filled", ticker := t, amount := a, units := a / getPrice mkt1 t
       , price := getPrice mkt1 t }) := by
    unfold Portfolio.buy
    rw [hamax, if_neg (not_le.mpr ha), if_neg (not_le.mpr hp1)]
    simp only [hzero, zero_add]
  have hunits : 0 < a / getPrice mkt1 t := div_pos ha hp1
  have hbpos : 0 < b := lt_of_lt_of_le (mul_pos hunits hp2) hb
  have howned : dictGetD (dictSet pf.positions t (a / getPrice mkt1 t)) t 0
      = a / getPrice mkt1 t := by
    simp only [dictGetD, dictGet_dictSet_self, Option.getD_some]
  have hsellcash : min b (a / getPrice mkt1 t * getPrice mkt2 t)
      = a / getPrice mkt1 t * getPrice mkt2 t := min_eq_right hb
  have hcancel : a / getPrice mkt1 t * getPrice mkt2 t / getPrice mkt2 t
      = a / getPrice mkt1 t := by
    field_simp
    ring
  have hsell : Portfolio.sell mkt2 (Portfolio.buy mkt1 pf t a).1 t b =
      ({ cash := pf.cash + a / getPrice mkt1 t * getPrice mkt2 t
       , positions := dictPop (dictSet (dictSet pf.positions t (a / getPrice mkt1 t)) t 0) t },
       { status := "filled", ticker := t, amount := a / getPrice mkt1 t * getPrice mkt2 t
       , units := a / getPrice mkt1 t, price := getPrice mkt2 t }) := by
    rw [hbuy]
    unfold Portfolio.sell
    simp only
    rw [max_eq_right hbpos.le, if_neg (not_le.mpr hbpos), howned,
      if_neg (by push_neg; exact ⟨hunits, hp2⟩)]
    rw [hsellcash, hcancel, sub_self, max_self, if_pos rfl]
  have hdivmul : a / getPrice mkt1 t * getPrice mkt2 t
      = a * getPrice mkt2 t / getPrice mkt1 t := div_mul_eq_mul_div a (getPrice mkt1 t) _
  refine ⟨by rw [hbuy], by rw [hbuy], by rw [hbuy]; exact howned, by rw [hsell],
    by rw [hsell]; exact hdivmul, by rw [hsell]; simp only [← hdivmul],
    by rw [hsell]; exact dictGet_dictPop_dictSet _ t 0 (dictSet_nodup _ t _ hnodup)⟩

/-- Concrete market for the C6 witness: INDEX trades at 50. -/
def mktC6 : MarketState :=
  { index := { price := 50, history := [50] }
  , stockA := { price := 60, history := [] }
  , stockB := { price := 140, history := [] } }

/-- C6 witness: buy 100 at price 50 then over-sell 1000 at price 50 —
2 units bought, exactly 100 cash realized, position entry removed. -/
theorem ledger_buy_sell_round_trip_witness :
    (Portfolio.buy mktC6 ⟨0, []⟩ "INDEX" 100).2.units = 100 / getPrice mktC6 "INDEX" ∧
    (Portfolio.sell mktC6 (Portfolio.buy mktC6 ⟨0, []⟩ "INDEX" 100).1 "INDEX" 1000).1.cash
      = 0 + 100 * getPrice mktC6 "INDEX" / getPrice mktC6 "INDEX" ∧
    dictGet (Portfolio.sell mktC6 (Portfolio.buy mktC6 ⟨0, []⟩ "INDEX" 100).1
      "INDEX" 1000).1.positions "INDEX" = none := by
  have h := ledger_buy_sell_round_trip mktC6 mktC6 ⟨0, []⟩ "INDEX" 100 1000
    (by simp) (by simp [dictGetD, dictGet]) (by norm_num)
    (by simp [getPrice, getInstr, resolveTicker, trackedTicker, mktC6])
    (by simp [getPrice, getInstr, resolveTicker, trackedTicker, mktC6])
    (by simp [getPrice, getInstr, resolveTicker, trackedTicker, mktC6]; norm_num)
  exact ⟨h.2.1, h.2.2.2.2.2.1, h.2.2.2.2.2.2⟩

/-! ### C5: volatility veto -/

/-- C5: on every nonempty history whose realized volatility exceeds `0.06`
(variance above `0.06^2` in the squared representation), `analyze_market`
returns `hold` with confidence 20, whatever the moving averages say. -/
theorem analyze_volatility_veto (hist : List ℚ) (hne : hist ≠ [])
    (hv : tbVolSq hist > (6 / 100) ^ 2) :
    (analyzeMarket hist).signal = "hold" ∧ (analyzeMarket hist).confidence = 20 := by
  simp only [analyzeMarket, if_neg hne, if_pos hv]
  norm_num

/-- C5 witness: the history `[100, 200, 100]` has returns variance `9/16`,
far above the veto threshold. -/
theorem analyze_volatility_veto_witness :
    (analyzeMarket [100, 200, 100]).signal = "hold" ∧
      (analyzeMarket [100, 200, 100]).confidence = 20 :=
  analyze_volatility_veto [100, 200, 100] (by simp)
    (by norm_num [tbVolSq, pctReturns, List.zip, List.zipWith, List.filterMap, List.sum]
        simp
        norm_num)

/-! ### C3: emergency-buffer cap on the recurring contribution -/

/-- State of the spec's emergency-buffer test: cash 1000, explicit buffer
900, large income, zero volatility. -/
def stateC3 : AgentState :=
  { bankBalance := some 1000, balance := none, monthlyIncome := some 10000
  , incomeRate := none, monthlyExpense := none, expenseRate := none
  , emergencyBuffer := some 900, volSq := some 0, riskProfile := none }

/-- C3 counterexample: with cash 1000 and buffer 900 the aggressive profile
multiplies the capped contribution by `sip_factor = 1.5` after the cap, so
`_compute_sip` returns 150, above the claimed bound of 100. -/
theorem sip_cap_exceeded_for_aggressive :
    computeSip stateC3 [] "aggressive" = 150 ∧
      ¬ computeSip stateC3 [] "aggressive" ≤ 100 := by
  have h : computeSip stateC3 [] "aggressive" = 150 := by
    simp only [computeSip, stateC3, riskConfigGet]
    norm_num
    simp
    norm_num
  exact ⟨h, by rw [h]; norm_num⟩

/-- C3 amended: with cash 1000 and an explicit emergency buffer of 900, the
recurring contribution is at most `100 × sip_factor` of the profile — hence
at most 100 for the conservative and balanced profiles, but up to 150 for
the aggressive profile. -/
theorem sip_capped_after_profile_factor
    (s : AgentState) (hist : List ℚ) (profile : String)
    (hcash : s.bankBalance = some 1000) (hbuf : s.emergencyBuffer = some 900) :
    computeSip s hist profile ≤ 100 * (riskConfigGet profile).sipFactor := by
  have hfac : 0 ≤ (riskConfigGet profile).sipFactor := by
    unfold riskConfigGet
    split
    · norm_num
    · split
      · norm_num
      · split <;> norm_num
  unfold computeSip
  rw [hcash, hbuf]
  simp only [Option.getD_some]
  have h100 : max (0 : ℚ) (1000 - 900) = 100 := by norm_num
  rw [h100]
  set inc := s.monthlyIncome.getD (s.incomeRate.getD 0) with hinc
  set f := (riskConfigGet profile).sipFactor with hf
  set base := max (3 / 100 * inc) (2 / 100 * 1000) with hbase
  have hbase0 : (0 : ℚ) ≤ base := le_trans (by norm_num) (le_max_right _ _)
  have hmin0 : (0 : ℚ) ≤ min base 100 := le_min hbase0 (by norm_num)
  have hmin1 : min base 100 ≤ 100 := min_le_right _ _
  rw [max_le_iff]
  constructor
  · nlinarith
  · split
    · nlinarith [mul_le_mul_of_nonneg_right hmin1 hfac, mul_nonneg hmin0 hfac]
    · nlinarith [mul_le_mul_of_nonneg_right hmin1 hfac, mul_nonneg hmin0 hfac]

/-- C3 witness for the amended bound: the counterexample state under the
aggressive profile reaches the bound `100 × 1.5` exactly. -/
theorem sip_capped_after_profile_factor_witness :
    computeSip stateC3 [] "aggressive" ≤ 100 * (riskConfigGet "aggressive").sipFactor :=
  sip_capped_after_profile_factor stateC3 [] "aggressive" rfl rfl

/-! ### C4: lump-sum gating -/

/-- C4 amended: the returned mode is `lumpsum` exactly when the five gate
conditions hold AND the recurring contribution is positive (a zero
contribution forces `should_invest = False`, which downgrades the returned
mode to `sip`); whenever `lumpsum` is returned, the amount is the recurring
contribution times the profile's lump-sum factor.  The returned mode is
always one of `sip`/`lumpsum`. -/
theorem evaluate_lumpsum_gating (mkt : MarketState) (s : AgentState) :
    ((evaluateInvestmentOpportunity mkt s).mode = "lumpsum" ↔
      ((analyzeMarket (getHistory mkt "INDEX")).signal = "buy" ∧
       (analyzeMarket (getHistory mkt "INDEX")).confidence ≥ 75 ∧
       (predictPrice (getHistory mkt "INDEX") >
         if getHistory mkt "INDEX" = [] then predictPrice (getHistory mkt "INDEX")
         else lastD (getHistory mkt "INDEX")) ∧
       (analyzeMarket (getHistory mkt "INDEX")).volSq
         < (riskConfigGet (s.riskProfile.getD "balanced")).maxVolSq ∧
       (riskConfigGet (s.riskProfile.getD "balanced")).lumpsumFactor > 0 ∧
       computeSip s (getHistory mkt "INDEX") (s.riskProfile.getD "balanced") > 0)) ∧
    ((evaluateInvestmentOpportunity mkt s).mode = "lumpsum" →
      (evaluateInvestmentOpportunity mkt s).amount
        = computeSip s (getHistory mkt "INDEX") (s.riskProfile.getD "balanced")
          * (riskConfigGet (s.riskProfile.getD "balanced")).lumpsumFactor) ∧
    ((evaluateInvestmentOpportunity mkt s).mode = "lumpsum" ∨
      (evaluateInvestmentOpportunity mkt s).mode = "sip") := by
  unfold evaluateInvestmentOpportunity
  simp only
  by_cases hup : (analyzeMarket (getHistory mkt "INDEX")).signal = "buy" ∧
      (analyzeMarket (getHistory mkt "INDEX")).confidence ≥ 75 ∧
      (predictPrice (getHistory mkt "INDEX") >
        if getHistory mkt "INDEX" = [] then predictPrice (getHistory mkt "INDEX")
        else lastD (getHistory mkt "INDEX")) ∧
      (analyzeMarket (getHistory mkt "INDEX")).volSq
        < (riskConfigGet (s.riskProfile.getD "balanced")).maxVolSq ∧
      (riskConfigGet (s.riskProfile.getD "balanced")).lumpsumFactor > 0
  · simp only [if_pos hup]
    have hf : 0 < (riskConfigGet (s.riskProfile.getD "balanced")).lumpsumFactor :=
      hup.2.2.2.2
    by_cases hs : computeSip s (getHistory mkt "INDEX") (s.riskProfile.getD "balanced")
        * (riskConfigGet (s.riskProfile.getD "balanced")).lumpsumFactor > 0
    · simp only [if_pos hs]
      have hsip : 0 < computeSip s (getHistory mkt "INDEX") (s.riskProfile.getD "balanced") := by
        by_contra hle
        push_neg at hle
        nlinarith
      refine ⟨?_, ?_, Or.inl trivial⟩
      · constructor
        · intro _
          exact ⟨hup.1, hup.2.1, hup.2.2.1, hup.2.2.2.1, hup.2.2.2.2, hsip⟩
        · intro _
          trivial
      · intro _
        exact max_eq_left hs.le
    · simp only [if_neg hs]
      have hmode : ("sip" : String) ≠ "lumpsum" := by decide
      refine ⟨?_, ?_, Or.inr trivial⟩
      · constructor
        · intro hcontra
          exact absurd hcontra hmode
        · rintro ⟨-, -, -, -, -, hsip⟩
          exact absurd (mul_pos hsip hf) hs
      · intro hcontra
        exact absurd hcontra hmode
  · simp only [if_neg hup, ite_self]
    have hne : ("sip" : String) ≠ "lumpsum" := by decide
    refine ⟨?_, fun hcontra => absurd hcontra hne, Or.inr trivial⟩
    constructor
    · intro hcontra
      exact absurd hcontra hne
    · rintro ⟨h1, h2, h3, h4, h5, -⟩
      exact absurd ⟨h1, h2, h3, h4, h5⟩ hup

/-- Rising 20-point history: moving-average crossover with tiny volatility,
giving a buy signal with confidence 90 and a positive OLS trend. -/
def histC4 : List ℚ :=
  [100, 101, 102, 103, 104, 105, 106, 107, 108, 109,
   110, 111, 112, 113, 114, 115, 116, 117, 118, 119]

/-- Market whose INDEX carries `histC4`. -/
def mktC4 : MarketState :=
  { index := { price := 119, history := histC4 }
  , stockA := { price := 60, history := [] }
  , stockB := { price := 140, history := [] } }

/-- Exact returns variance of `histC4` (≈ 2.1e-7, far below every
volatility threshold). -/
def volC4 : ℚ :=
  176488734969730890818179779165158332117271393288033 /
    821262846020587284617225740832384338188157071917742960000

lemma getHistory_mktC4 : getHistory mktC4 "INDEX" = histC4 := by
  simp [getHistory, getInstr, resolveTicker, trackedTicker, mktC4]

lemma riskConfigGet_balanced :
    riskConfigGet "balanced"
      = { maxVolSq := 9 / 10000, maxAlloc := 3 / 50, lumpsumFactor := 1, sipFactor := 1 } := by
  simp [riskConfigGet]
  norm_num

set_option maxHeartbeats 4000000 in
lemma analyzeMarket_histC4 :
    analyzeMarket histC4 = { signal := "buy", confidence := 90, volSq := volC4 } := by
  norm_num [histC4, volC4, analyzeMarket, tbVolSq, pctReturns, smaOpt, orFloat, lastD,
    List.zip, List.zipWith, List.filterMap, List.getLast?, List.sum, List.drop]
  simp
  norm_num

set_option maxHeartbeats 4000000 in
lemma predictPrice_histC4 : predictPrice histC4 = 120 := by
  have hr : List.range 10 = [0, 1, 2, 3, 4, 5, 6, 7, 8, 9] := rfl
  norm_num [histC4, predictPrice, lastD, hr, List.sum, List.drop, List.getLast?]
  simp

lemma lastD_histC4 : lastD histC4 = 119 := by
  simp [histC4, lastD]

/-- State with no cash and no income: the recurring contribution is zero. -/
def zeroStateC4 : AgentState :=
  { bankBalance := some 0, balance := none, monthlyIncome := none
  , incomeRate := none, monthlyExpense := none, expenseRate := none
  , emergencyBuffer := none, volSq := none, riskProfile := none }

/-- Funded state: 10000 cash, balanced profile by default. -/
def richStateC4 : AgentState :=
  { bankBalance := some 10000, balance := none, monthlyIncome := none
  , incomeRate := none, monthlyExpense := none, expenseRate := none
  , emergencyBuffer := none, volSq := none, riskProfile := none }

lemma computeSip_zeroStateC4 : computeSip zeroStateC4 histC4 "balanced" = 0 := by
  simp only [computeSip, zeroStateC4, riskConfigGet]
  norm_num

lemma computeSip_richStateC4 : computeSip richStateC4 histC4 "balanced" = 200 := by
  simp only [computeSip, richStateC4, riskConfigGet]
  norm_num
  simp
  norm_num

/-- C4 counterexample: on `histC4` all five gate conditions hold (buy,
confidence 90 ≥ 75, forecast 120 > 119, tiny volatility below the balanced
ceiling, lump-sum factor 1 > 0), yet with no funds the returned mode is
`sip`, refuting the claimed "exactly when the five conditions hold". -/
theorem evaluate_lumpsum_gate_not_sufficient :
    ((analyzeMarket (getHistory mktC4 "INDEX")).signal = "buy" ∧
     (analyzeMarket (getHistory mktC4 "INDEX")).confidence ≥ 75 ∧
     predictPrice (getHistory mktC4 "INDEX") > lastD (getHistory mktC4 "INDEX") ∧
     (analyzeMarket (getHistory mktC4 "INDEX")).volSq
       < (riskConfigGet "balanced").maxVolSq ∧
     (riskConfigGet "balanced").lumpsumFactor > 0) ∧
    (evaluateInvestmentOpportunity mktC4 zeroStateC4).mode = "sip" := by
  have hgates : (analyzeMarket (getHistory mktC4 "INDEX")).signal = "buy" ∧
      (analyzeMarket (getHistory mktC4 "INDEX")).confidence ≥ 75 ∧
      predictPrice (getHistory mktC4 "INDEX") > lastD (getHistory mktC4 "INDEX") ∧
      (analyzeMarket (getHistory mktC4 "INDEX")).volSq
        < (riskConfigGet "balanced").maxVolSq ∧
      (riskConfigGet "balanced").lumpsumFactor > 0 := by
    rw [getHistory_mktC4, analyzeMarket_histC4, predictPrice_histC4, lastD_histC4,
      riskConfigGet_balanced]
    refine ⟨rfl, by norm_num, by norm_num, ?_, by norm_num⟩
    norm_num [volC4]
  refine ⟨hgates, ?_⟩
  have hprof : (zeroStateC4.riskProfile).getD "balanced" = "balanced" := rfl
  unfold evaluateInvestmentOpportunity
  simp only [getHistory_mktC4, hprof, analyzeMarket_histC4, riskConfigGet_balanced,
    computeSip_zeroStateC4, predictPrice_histC4]
  norm_num [histC4, lastD, volC4, List.getLast?]

/-- C4 witness for the amended gating: with 10000 of cash the same market
yields mode `lumpsum` and amount `200 × 1`. -/
theorem evaluate_lumpsum_gating_witness :
    (evaluateInvestmentOpportunity mktC4 richStateC4).mode = "lumpsum" ∧
    (evaluateInvestmentOpportunity mktC4 richStateC4).amount = 200 := by
  have h := evaluate_lumpsum_gating mktC4 richStateC4
  have hprofile : (richStateC4.riskProfile).getD "balanced" = "balanced" := rfl
  have hlump : (evaluateInvestmentOpportunity mktC4 richStateC4).mode = "lumpsum" := by
    apply h.1.mpr
    rw [getHistory_mktC4, analyzeMarket_histC4, predictPrice_histC4, hprofile,
      riskConfigGet_balanced, computeSip_richStateC4]
    rw [if_neg (by simp [histC4] : histC4 ≠ []), lastD_histC4]
    refine ⟨rfl, by norm_num, by norm_num, by norm_num [volC4], by norm_num, by norm_num⟩
  refine ⟨hlump, ?_⟩
  have ha := h.2.1 hlump
  rw [getHistory_mktC4, hprofile, riskConfigGet_balanced, computeSip_richStateC4] at ha
  rw [ha]
  norm_num

/-! ### C1: reset -/

/-- A portfolio holding a position, live across a reset. -/
def pfC1 : Portfolio := { cash := 5, positions := [("INDEX", 2)] }

/-- C1 counterexample: `POST /reset` leaves the in-memory Portfolio exactly
as it was — after a reset with an open INDEX position (and position cash),
the Portfolio still holds that position, refuting "the Portfolio holds no
positions and no position cash". -/
theorem reset_keeps_portfolio_positions :
    (resetEndpoint initialSimState pfC1 initialMarket).2.1 = pfC1 ∧
      pfC1.positions ≠ [] ∧ pfC1.cash ≠ 0 := by
  refine ⟨rfl, by simp [pfC1], by simp [pfC1]⟩

/-- C1 amended: reset restores the Account State to its initial values
(bank balance 10000, empty income/expense/SIP/lump-sum/NAV series, balance
history `[10000]`, cumulative invested amount 0), leaves both the in-memory
Portfolio (positions and position cash) and the Market Process histories
untouched, and a second consecutive reset yields the identical Account
State. -/
theorem reset_restores_account_state (s : SimState) (pf : Portfolio) (mkt : MarketState)
    (hbi : s.baseIncome = 5000) (hbe : s.baseExpense = 3000) :
    resetEndpoint s pf mkt = (initialSimState, pf, mkt) ∧
      resetSimState (resetSimState s) = resetSimState s := by
  constructor
  · simp [resetEndpoint, resetSimState, initialSimState, hbi, hbe]
  · rfl

/-- C1 witness: a mid-run account state (changed balance, histories) resets
to the initial Account State with the portfolio intact. -/
theorem reset_restores_account_state_witness :
    resetEndpoint { initialSimState with bankBalance := 42, navHistory := [7] }
        pfC1 initialMarket = (initialSimState, pfC1, initialMarket) :=
  (reset_restores_account_state
    { initialSimState with bankBalance := 42, navHistory := [7] }
    pfC1 initialMarket rfl rfl).1

/-! ### C10: investment execution conserves wealth -/

lemma portfolio_buy_noop (mkt : MarketState) (pf : Portfolio) (ticker : String) :
    Portfolio.buy mkt pf ticker 0
      = (pf, { status := "noop", ticker := ticker, amount := 0, units := 0, price := 0 }) := by
  unfold Portfolio.buy
  norm_num

lemma portfolio_buy_filled (mkt : MarketState) (pf : Portfolio) (ticker : String) (m : ℚ)
    (hm : 0 < m) (hp : 0 < getPrice mkt ticker) :
    Portfolio.buy mkt pf ticker m
      = ({ pf with positions :=
            dictSet pf.positions ticker (dictGetD pf.positions ticker 0 + m / getPrice mkt ticker) },
         { status := "filled", ticker := ticker, amount := m, units := m / getPrice mkt ticker
         , price := getPrice mkt ticker }) := by
  unfold Portfolio.buy
  rw [max_eq_right hm.le, if_neg (not_le.mpr hm), if_neg (not_le.mpr hp)]

lemma portfolio_value_dictSet_add (mkt : MarketState) (pf : Portfolio) (ticker : String)
    (u : ℚ) :
    Portfolio.value mkt
        { pf with positions :=
            dictSet pf.positions ticker (dictGetD pf.positions ticker 0 + u) }
      = Portfolio.value mkt pf + u * getPrice mkt ticker := by
  unfold Portfolio.value
  simp only
  rw [dictValue_dictSet]
  ring

/-- C10: `apply_investment` with a positive request, a positive price and a
nonnegative bank balance debits exactly `min(amount, bank)`, credits exactly
`min(amount, bank) / price` units, never drives the bank negative, leaves
the market untouched, and conserves total wealth (bank plus holdings at
current prices). -/
theorem apply_investment_conserves_wealth
    (sim : SimState) (pf : Portfolio) (mkt : MarketState) (ds : List MarketDraw)
    (mode ticker : String) (a : ℚ)
    (ha : 0 < a) (hp : 0 < getPrice mkt ticker) (hbank : 0 ≤ sim.bankBalance)
    (hne : mkt.index.history ≠ []) :
    (applyInvestment sim pf mkt ds mode ticker a).1.bankBalance
        = sim.bankBalance - min a sim.bankBalance ∧
    0 ≤ (applyInvestment sim pf mkt ds mode ticker a).1.bankBalance ∧
    (applyInvestment sim pf mkt ds mode ticker a).2.2.1 = mkt ∧
    dictGetD (applyInvestment sim pf mkt ds mode ticker a).2.1.positions ticker 0
      = dictGetD pf.positions ticker 0 + min a sim.bankBalance / getPrice mkt ticker ∧
    (applyInvestment sim pf mkt ds mode ticker a).1.bankBalance
        + Portfolio.value mkt (applyInvestment sim pf mkt ds mode ticker a).2.1
      = sim.bankBalance + Portfolio.value mkt pf := by
  have hmax : max 0 a = a := max_eq_right ha.le
  have hm0 : 0 ≤ min a sim.bankBalance := le_min ha.le hbank
  have hboot : ensureBootstrap mkt ds = mkt := by
    unfold ensureBootstrap
    rw [if_neg hne]
  have hbanksub : 0 ≤ sim.bankBalance - min a sim.bankBalance :=
    sub_nonneg.mpr (min_le_right _ _)
  rcases eq_or_lt_of_le hm0 with hmz | hmp
  · have hbuy : Portfolio.buy mkt pf ticker (min a sim.bankBalance)
        = (pf, { status := "noop", ticker := ticker, amount := 0, units := 0, price := 0 }) := by
      rw [← hmz]
      exact portfolio_buy_noop mkt pf ticker
    by_cases hmode : mode = "lumpsum" <;>
      simp only [applyInvestment, hmax, if_neg (not_le.mpr ha), hmode, eq_self_iff_true,
        if_true, ite_true, ite_false, hbuy, constructCoreState,
        getIndexMetrics, recomputeSipSuggestion, hboot] <;>
      refine ⟨by trivial, hbanksub, by trivial, ?_, ?_⟩ <;>
      rw [← hmz] <;>
      simp [zero_div]
  · have hbuy : Portfolio.buy mkt pf ticker (min a sim.bankBalance)
        = ({ pf with positions := (dictSet pf.positions ticker
              (dictGetD pf.positions ticker 0 + min a sim.bankBalance / getPrice mkt ticker)) },
           { status := "filled", ticker := ticker, amount := min a sim.bankBalance
           , units := min a sim.bankBalance / getPrice mkt ticker
           , price := getPrice mkt ticker }) :=
      portfolio_buy_filled mkt pf ticker _ hmp hp
    have hval : Portfolio.value mkt
        { pf with positions := (dictSet pf.positions ticker
            (dictGetD pf.positions ticker 0 + min a sim.bankBalance / getPrice mkt ticker)) }
        = Portfolio.value mkt pf + min a sim.bankBalance := by
      rw [portfolio_value_dictSet_add, div_mul_cancel₀ _ (ne_of_gt hp)]
    by_cases hmode : mode = "lumpsum" <;>
      simp only [applyInvestment, hmax, if_neg (not_le.mpr ha), hmode, eq_self_iff_true,
        if_true, ite_true, ite_false, hbuy, constructCoreState,
        getIndexMetrics, recomputeSipSuggestion, hboot] <;>
      refine ⟨by trivial, hbanksub, by trivial, ?_, ?_⟩
    · simp only [dictGetD, dictGet_dictSet_self, Option.getD_some]
    · rw [hval]
      ring
    · simp only [dictGetD, dictGet_dictSet_self, Option.getD_some]
    · rw [hval]
      ring

/-- C10 witness: investing 500 from the initial account at INDEX price 50
debits 500, credits 10 units, and conserves wealth. -/
theorem apply_investment_conserves_wealth_witness :
    (applyInvestment initialSimState ⟨0, []⟩ mktC6 [] "sip" "INDEX" 500).1.bankBalance
        = initialSimState.bankBalance - min 500 initialSimState.bankBalance ∧
    0 ≤ (applyInvestment initialSimState ⟨0, []⟩ mktC6 [] "sip" "INDEX" 500).1.bankBalance ∧
    (applyInvestment initialSimState ⟨0, []⟩ mktC6 [] "sip" "INDEX" 500).2.2.1 = mktC6 ∧
    dictGetD (applyInvestment initialSimState ⟨0, []⟩ mktC6 []
        "sip" "INDEX" 500).2.1.positions "INDEX" 0
      = dictGetD (⟨0, []⟩ : Portfolio).positions "INDEX" 0
          + min 500 initialSimState.bankBalance / getPrice mktC6 "INDEX" ∧
    (applyInvestment initialSimState ⟨0, []⟩ mktC6 [] "sip" "INDEX" 500).1.bankBalance
        + Portfolio.value mktC6 (applyInvestment initialSimState ⟨0, []⟩ mktC6 []
            "sip" "INDEX" 500).2.1
      = initialSimState.bankBalance + Portfolio.value mktC6 (⟨0, []⟩ : Portfolio) :=
  apply_investment_conserves_wealth initialSimState ⟨0, []⟩ mktC6 [] "sip" "INDEX" 500
    (by norm_num)
    (by simp [getPrice, getInstr, resolveTicker, trackedTicker, mktC6])
    (by norm_num [initialSimState])
    (by simp [mktC6])

/-! ### C2: the reward never grants full NAV credit -/

/-- Market before the C2 cycle: INDEX at 100 with a one-point history. -/
def mktC2 : MarketState :=
  { index := { price := 100, history := [100] }
  , stockA := { price := 60, history := [] }
  , stockB := { price := 140, history := [] } }

/-- Account before the C2 cycle: fresh state with one NAV point. -/
def simC2 : SimState := { initialSimState with navHistory := [100] }

/-- Portfolio before the C2 cycle: one INDEX unit held. -/
def pfC2 : Portfolio := { cash := 0, positions := [("INDEX", 1)] }

/-- Market draws of the C2 cycle. -/
def drawC2 : MarketDraw :=
  { index := { proposed := 120, zNonneg := true }
  , stockA := { proposed := 61, zNonneg := true }
  , stockB := { proposed := 141, zNonneg := true } }

/-- Market after the step. -/
def mktC2b : MarketState :=
  { index := { price := 120, history := [100, 120] }
  , stockA := { price := 61, history := [61] }
  , stockB := { price := 141, history := [141] } }

/-- Account after income 5000 and expense 3000. -/
def simC2b : SimState :=
  { bankBalance := 12000, baseIncome := 5000, baseExpense := 3000
  , incomeHistory := [5000], expenseHistory := [3000]
  , balanceHistory := [10000, 12000], sipHistory := [], lumpsumHistory := []
  , navHistory := [100], investedAmount := 0, lastSipSuggested := 360 }

/-- Observed state of the C2 cycle. -/
def stC2 : StateDict :=
  { core :=
    { balance := 12000, incomeRate := 5000, expenseRate := 3000, volSq := 0
    , portfolioValue := 12120, emergencyBufferOk := true, riskProfile := "aggressive"
    , bankBalance := 12000, monthlyIncome := 5000, monthlyExpense := 3000
    , emergencyBuffer := 9000, priceHistory := [100, 120], navHistory := [100]
    , lastInvestAmount := none }
  , sipSuggestedAmount := 360, cashflowInflow := 5000, cashflowOutflow := 3000
  , nav := none }

/-- Plan of the C2 cycle: invest the suggested SIP of 360. -/
def planC2 : PlanOut :=
  { action := "invest", investAmount := 360, investMode := "sip", ticker := "INDEX"
  , signal := "hold", signalConfidence := 10, suggestedSip := 360 }

/-- Account after executing the 360 SIP investment. -/
def simC2c : SimState :=
  { bankBalance := 11640, baseIncome := 5000, baseExpense := 3000
  , incomeHistory := [5000], expenseHistory := [3000]
  , balanceHistory := [10000, 12000, 11640], sipHistory := [360], lumpsumHistory := [0]
  , navHistory := [100], investedAmount := 360, lastSipSuggested := 1746 / 5 }

/-- Portfolio after the buy: 4 INDEX units. -/
def pfC2b : Portfolio := { cash := 0, positions := [("INDEX", 4)] }

/-- Trade result of the C2 cycle. -/
def resC2 : TradeResult :=
  { status := "filled", ticker := "INDEX", amount := 360, units := 3, price := 120 }

/-- Account after the NAV update (new NAV 480). -/
def simC2d : SimState :=
  { bankBalance := 11640, baseIncome := 5000, baseExpense := 3000
  , incomeHistory := [5000], expenseHistory := [3000]
  , balanceHistory := [10000, 12000, 11640], sipHistory := [360], lumpsumHistory := [0]
  , navHistory := [100, 480], investedAmount := 360, lastSipSuggested := 1746 / 5 }

/-- Full output of the C2 cycle: it invested 360 (status `filled`) with
Δnav = 380, yet the reward is `0.2 × 380 + 0.05 = 1521/20`, not the claimed
full-credit `380 + 0.05`. -/
def outC2 : CycleOut :=
  { state :=
    { core :=
      { balance := 12000, incomeRate := 5000, expenseRate := 3000, volSq := 0
      , portfolioValue := 12120, emergencyBufferOk := true, riskProfile := "aggressive"
      , bankBalance := 12000, monthlyIncome := 5000, monthlyExpense := 3000
      , emergencyBuffer := 9000, priceHistory := [100, 120], navHistory := [100, 480]
      , lastInvestAmount := none }
    , sipSuggestedAmount := 360, cashflowInflow := 5000, cashflowOutflow := 3000
    , nav := some 480 }
  , planOut := planC2
  , result := resC2
  , reward := 1521 / 20
  , simAfter := simC2d
  , pfAfter := pfC2b
  , mktAfter := mktC2b }

lemma stepC2 : stepMarket drawC2 mktC2 = mktC2b := by
  norm_num [stepMarket, stepInstr, stepPrice, pushHistory, drawC2, mktC2, mktC2b]

set_option maxHeartbeats 4000000 in
lemma simulateC2 :
    simulateIncomeAndExpense simC2 pfC2 mktC2b [] 5000 3000 = (simC2b, mktC2b, 5000, 3000) := by
  norm_num [simulateIncomeAndExpense, simC2, pfC2, mktC2b, simC2b, initialSimState,
    constructCoreState, getIndexMetrics, ensureBootstrap, getHistory, getPrice, getInstr,
    resolveTicker, trackedTicker, realizedVolSq, pctReturns, Portfolio.value,
    recomputeSipSuggestion, coreToAgent, evaluateInvestmentOpportunity, analyzeMarket,
    tbVolSq, smaOpt, orFloat, lastD, predictPrice, computeSip, riskConfigGet,
    List.zip, List.zipWith, List.filterMap, List.getLast?, List.sum, List.drop]
  norm_num [riskConfigGet]
  simp
  norm_num

set_option maxHeartbeats 4000000 in
lemma observeC2 : getState simC2b pfC2 mktC2b [] = (simC2b, mktC2b, stC2) := by
  norm_num [getState, simC2b, pfC2, mktC2b, stC2,
    constructCoreState, getIndexMetrics, ensureBootstrap, getHistory, getPrice, getInstr,
    resolveTicker, trackedTicker, realizedVolSq, pctReturns, Portfolio.value,
    recomputeSipSuggestion, coreToAgent, evaluateInvestmentOpportunity, analyzeMarket,
    tbVolSq, smaOpt, orFloat, lastD, predictPrice, computeSip, riskConfigGet,
    List.zip, List.zipWith, List.filterMap, List.getLast?, List.sum, List.drop]
  norm_num [riskConfigGet]
  simp
  norm_num

set_option maxHeartbeats 4000000 in
lemma planC2_eq :
    plan mktC2b { stC2 with core :=
        { stC2.core with monthlyIncome := 5000, monthlyExpense := 3000 } } = planC2 := by
  norm_num [plan, stC2, planC2, mktC2b, stateDictToAgent, coreToAgent,
    evaluateInvestmentOpportunity, analyzeMarket, tbVolSq, pctReturns, smaOpt, orFloat,
    lastD, predictPrice, computeSip, riskConfigGet, getHistory, getInstr, resolveTicker,
    trackedTicker, List.zip, List.zipWith, List.filterMap, List.getLast?, List.sum,
    List.drop]
  norm_num [riskConfigGet]
  simp
  norm_num

set_option maxHeartbeats 4000000 in
lemma executeC2 :
    execute simC2b pfC2 mktC2b [] planC2 = (simC2c, pfC2b, mktC2b, resC2) := by
  norm_num [execute, applyInvestment, planC2, simC2b, pfC2, mktC2b, simC2c, pfC2b, resC2,
    Portfolio.buy, dictSet, dictGet, dictGetD,
    constructCoreState, getIndexMetrics, ensureBootstrap, getHistory, getPrice, getInstr,
    resolveTicker, trackedTicker, realizedVolSq, pctReturns, Portfolio.value,
    recomputeSipSuggestion, coreToAgent, evaluateInvestmentOpportunity, analyzeMarket,
    tbVolSq, smaOpt, orFloat, lastD, predictPrice, computeSip, riskConfigGet,
    List.zip, List.zipWith, List.filterMap, List.getLast?, List.sum, List.drop]
  norm_num [riskConfigGet]
  simp
  norm_num

lemma updateNavC2 : updateNavHistory simC2c pfC2b mktC2b = (simC2d, 480) := by
  norm_num [updateNavHistory, Portfolio.value, simC2c, pfC2b, mktC2b, simC2d,
    getPrice, getInstr, resolveTicker, trackedTicker]
  simp
  norm_num

/-- C2: the state `run_cycle` hands to `compute_reward` never carries
`last_invest_amount`, so the NAV component of the reward is always the
partial-credit `0.2 × Δnav`, even on cycles that invested a positive amount.
The concrete cycle `outC2` invests 360 with Δnav = 380 and still receives
`0.2 × 380 + 0.05`, not the claimed `380 + 0.05`. -/
theorem run_cycle_reward_ignores_invested_amount :
    (∀ (sim : SimState) (pf : Portfolio) (mkt : MarketState) (d : MarketDraw)
        (i e : ℚ) (ds : List MarketDraw),
      (runCycle sim pf mkt d i e ds).state.core.lastInvestAmount = none ∧
      (runCycle sim pf mkt d i e ds).reward
        = computeReward (runCycle sim pf mkt d i e ds).state
            (runCycle sim pf mkt d i e ds).result) ∧
    (∀ (st : StateDict) (r : TradeResult), st.core.lastInvestAmount = none →
      computeReward st r =
        (if 2 ≤ st.core.navHistory.length then
          (lastD st.core.navHistory - secondLastD st.core.navHistory) * (2 / 10)
        else 0)
        + (if st.core.emergencyBufferOk then 0 else -(1 / 2))
        + (if st.core.volSq > (4 / 100) ^ 2 then -(2 / 10) else 0)
        + (if st.core.volSq > (7 / 100) ^ 2 then -(1 / 2) else 0)
        + (if r.status = "filled" ∨ r.status = "saved" then 1 / 20 else 0)) ∧
    runCycle simC2 pfC2 mktC2 drawC2 5000 3000 [] = outC2 ∧
    outC2.result.amount = 360 ∧ outC2.result.status = "filled" ∧
    outC2.simAfter.navHistory = [100, 480] ∧
    outC2.reward = (480 - 100) * (2 / 10) + 1 / 20 ∧
    outC2.reward ≠ (480 - 100) + 1 / 20 := by
  refine ⟨?_, ?_, ?_, rfl, rfl, rfl, by norm_num [outC2], by norm_num [outC2]⟩
  · intro sim pf mkt d i e ds
    constructor
    · simp only [runCycle, getState, constructCoreState, getIndexMetrics,
        simulateIncomeAndExpense, recomputeSipSuggestion]
    · simp only [runCycle]
  · intro st r h
    unfold computeReward
    rw [h]
    simp only [Option.getD_none]
    rw [if_neg (by norm_num : ¬ (0 : ℚ) > 0)]
  · simp only [runCycle, stepC2, simulateC2, observeC2, planC2_eq, executeC2, updateNavC2]
    simp [stC2, simC2d, outC2, planC2, resC2, computeReward, lastD, secondLastD]
    norm_num

/-- C2 witness: applying the partial-credit formula to the concrete cycle
state reproduces the `0.2 × Δnav + bonus` reward. -/
theorem run_cycle_reward_ignores_invested_amount_witness :
    computeReward outC2.state outC2.result = (480 - 100) * (2 / 10) + 1 / 20 := by
  have h := run_cycle_reward_ignores_invested_amount.2.1 outC2.state outC2.result rfl
  rw [h]
  norm_num [outC2, resC2, lastD, secondLastD]

end ANLO
